import Mathlib

/-!
Shallow embedding of the recipe-discovery client's two algorithmic modules:

* `RecipeAPI.searchWithFilters` (the query planner) from `src/utils/api.ts`;
* the `useRelatedRecipes` hook (the related-recipe aggregator) from
  `src/hooks/useRelatedRecipes.ts`;
* the `shuffleArray` helper from `src/utils/helpers.ts`.

The remote gateway is modelled as a record of fallible functions
(`Except Unit …` corresponds to a thrown transport/parse error).  The
aggregator's final `recipes.sort(() => Math.random() - 0.5)` is modelled by an
explicit `shuffle` parameter: ECMAScript's `Array.prototype.sort` always
returns some rearrangement of its elements, so theorems quantify over any
`shuffle` that permutes its argument.
-/

/-- The fields of the TheMealDB `Recipe` shape that the planner and the
aggregator read.  `strTags` and `strIngredient1` are optional in the source
(`strTags?.…`, `strIngredient1?.…`); the remaining fields are accessed
unconditionally. -/
structure Recipe where
  idMeal : String
  strMeal : String
  strCategory : String
  strArea : String
  strInstructions : String
  strTags : Option String
  strIngredient1 : Option String
deriving DecidableEq, Repr

/-- JS truthiness of a `string | undefined` value: `undefined` and the empty
string are falsy. -/
def truthy : Option String → Bool
  | none => false
  | some s => !(s == "")

/-- One call to the remote recipe gateway, at the abstraction level of the
spec's Recipe Lookup Gateway (`getRandomRecipes n` is the gateway's
`randomSample`, a single gateway operation). -/
inductive GatewayCall where
  | byCategory (s : String)
  | byArea (s : String)
  | byIngredient (s : String)
  | byName (s : String)
  | random (n : Nat)
deriving DecidableEq, Repr

/-- The gateway: each operation either returns a recipe list or fails with an
opaque transport/parse error (a thrown exception in the source). -/
structure Gateway where
  getRecipesByCategory : String → Except Unit (List Recipe)
  getRecipesByArea : String → Except Unit (List Recipe)
  getRecipesByIngredient : String → Except Unit (List Recipe)
  searchByName : String → Except Unit (List Recipe)
  getRandomRecipes : Nat → Except Unit (List Recipe)

/-- The filter argument of `searchWithFilters` (`category? / area? /
ingredient?`). -/
structure SearchFilters where
  category : Option String := none
  area : Option String := none
  ingredient : Option String := none

/-- JS `toLowerCase()` of an ASCII-ish string, as a character list (Lean's
`String.toLower` is the same per-character map, but this form evaluates in
the kernel). -/
def jsLower (s : String) : List Char :=
  s.toList.map Char.toLower

/-- JS `haystack.includes(needle)`: substring containment on the character
lists. -/
def jsIncludes (haystack needle : List Char) : Bool :=
  decide (needle <:+: haystack)

/-- The in-memory post-filter predicate of `searchWithFilters`
(`src/utils/api.ts` lines 105–111): the lowercased query is a substring of
the lowercased name, instructions, or (when present) tag string; the
optional chaining `strTags?.toLowerCase().includes(…)` yields `undefined`
(falsy) when `strTags` is absent. -/
def matchesQueryB (query : String) (r : Recipe) : Bool :=
  let queryLower := jsLower query
  jsIncludes (jsLower r.strMeal) queryLower ||
  jsIncludes (jsLower r.strInstructions) queryLower ||
  (match r.strTags with
   | some t => jsIncludes (jsLower t) queryLower
   | none => false)

/-- `RecipeAPI.searchWithFilters` (`src/utils/api.ts` lines 88–117), returning
the list of gateway calls it issued together with its result.  The branch
structure mirrors the source's priority chain
`ingredient / category / area / query / random(12)`; the post-filter runs
only when the query is truthy and the fetched list is non-empty. -/
def searchWithFilters (gw : Gateway) (query : String) (filters : SearchFilters) :
    List GatewayCall × Except Unit (List Recipe) :=
  let fetch : GatewayCall × Except Unit (List Recipe) :=
    if truthy filters.ingredient then
      (.byIngredient (filters.ingredient.getD ""),
        gw.getRecipesByIngredient (filters.ingredient.getD ""))
    else if truthy filters.category then
      (.byCategory (filters.category.getD ""),
        gw.getRecipesByCategory (filters.category.getD ""))
    else if truthy filters.area then
      (.byArea (filters.area.getD ""), gw.getRecipesByArea (filters.area.getD ""))
    else if query ≠ "" then
      (.byName query, gw.searchByName query)
    else
      (.random 12, gw.getRandomRecipes 12)
  match fetch.2 with
  | .error e => ([fetch.1], .error e)
  | .ok recipes =>
      if query ≠ "" && !recipes.isEmpty then
        ([fetch.1], .ok (recipes.filter (matchesQueryB query)))
      else
        ([fetch.1], .ok recipes)

/-- The single gateway fetch the spec's priority order selects (spec §4.1):
ingredient filter, then category filter, then area filter, then free-text
query, else a random sample of fixed size 12. -/
def primaryFetch (query : String) (filters : SearchFilters) : GatewayCall :=
  if truthy filters.ingredient then .byIngredient (filters.ingredient.getD "")
  else if truthy filters.category then .byCategory (filters.category.getD "")
  else if truthy filters.area then .byArea (filters.area.getD "")
  else if query ≠ "" then .byName query
  else .random 12

/-- The `mainIngredient` derivation of the hook's `searchStrategy`
(`recipe.strIngredient1?.split(' ')[0].toLowerCase()`): `none` when
`strIngredient1` is absent; otherwise the first space-delimited token,
lowercased (JS `split` never returns an empty array, so index 0 exists). -/
def mainIngredientToken (r : Recipe) : Option String :=
  r.strIngredient1.map (fun s =>
    List.asString ((s.toList.takeWhile (fun c => !(c == ' '))).map Char.toLower))

/-- The merge step the hook performs for the area and ingredient pools:
append to `recipes` those pool members that are neither the focal recipe nor
already present by identifier
(`r.idMeal !== recipe.idMeal && !recipes.some(existing => existing.idMeal === r.idMeal)`). -/
def mergePool (focal : Recipe) (recipes pool : List Recipe) : List Recipe :=
  recipes ++ pool.filter (fun r =>
    !(r.idMeal == focal.idMeal) && !(recipes.any (fun existing => existing.idMeal == r.idMeal)))

/-- Step 3 of the hook's cascade: if the working set is still short of `limit`
and a main-ingredient token is truthy, fetch the ingredient pool and merge
it; a fetch failure aborts with the thrown error. -/
def relateStepIngredient (focal : Recipe) (limit : Nat) (gw : Gateway)
    (calls : List GatewayCall) (recipes : List Recipe) :
    List GatewayCall × Except Unit (List Recipe) :=
  if recipes.length < limit && truthy (mainIngredientToken focal) then
    match gw.getRecipesByIngredient ((mainIngredientToken focal).getD "") with
    | .error e =>
        (calls ++ [.byIngredient ((mainIngredientToken focal).getD "")], .error e)
    | .ok pool =>
        (calls ++ [.byIngredient ((mainIngredientToken focal).getD "")],
          .ok (mergePool focal recipes pool))
  else
    (calls, .ok recipes)

/-- Step 2 of the hook's cascade: if the category survivors number fewer than
`limit`, fetch the area pool and merge it, then proceed to the ingredient
step; a fetch failure aborts with the thrown error. -/
def relateStepArea (focal : Recipe) (limit : Nat) (gw : Gateway)
    (calls : List GatewayCall) (recipes : List Recipe) :
    List GatewayCall × Except Unit (List Recipe) :=
  if recipes.length < limit then
    match gw.getRecipesByArea focal.strArea with
    | .error e => (calls ++ [.byArea focal.strArea], .error e)
    | .ok pool =>
        relateStepIngredient focal limit gw (calls ++ [.byArea focal.strArea])
          (mergePool focal recipes pool)
  else
    relateStepIngredient focal limit gw calls recipes

/-- The hook's first filter: drop the focal recipe from the category pool by
identifier (`recipes.filter(r => r.idMeal !== recipe.idMeal)`). -/
def categorySurvivors (focal : Recipe) (pool : List Recipe) : List Recipe :=
  pool.filter (fun r => !(r.idMeal == focal.idMeal))

/-- The body of the hook's `fetchRelatedRecipes`
(`src/hooks/useRelatedRecipes.ts` lines 147–176) up to, but not including,
the final shuffle-and-slice: fetch the category pool, drop the focal recipe
by identifier, then run the area and ingredient fallback steps.  Returns the
list of gateway calls issued together with either the pre-shuffle working
set or the thrown error. -/
def relateRun (focal : Recipe) (limit : Nat) (gw : Gateway) :
    List GatewayCall × Except Unit (List Recipe) :=
  match gw.getRecipesByCategory focal.strCategory with
  | .error e => ([.byCategory focal.strCategory], .error e)
  | .ok pool =>
      relateStepArea focal limit gw [.byCategory focal.strCategory]
        (categorySurvivors focal pool)

/-- The state the hook exposes after one run of its effect from the initial
state (`relatedRecipes = []`, `error = null`). -/
structure RelatedState where
  relatedRecipes : List Recipe
  error : Option String
deriving DecidableEq, Repr

/-- One invocation of the `useRelatedRecipes` effect from the initial state.
On success the working set is shuffled (`recipes.sort(() => Math.random() - 0.5)`,
modelled by the `shuffle` parameter) and sliced to `limit`; on any thrown
gateway error the catch block sets the generic error message and
`relatedRecipes` keeps its initial value `[]` — the partially collected
pools are discarded. -/
def useRelatedRecipes (focal : Recipe) (limit : Nat) (gw : Gateway)
    (shuffle : List Recipe → List Recipe) : RelatedState :=
  match (relateRun focal limit gw).2 with
  | .error _ => { relatedRecipes := [], error := some "Failed to load related recipes" }
  | .ok recipes => { relatedRecipes := (shuffle recipes).take limit, error := none }

/-- The identifiers of a recipe list. -/
def idsOf (l : List Recipe) : List String :=
  l.map Recipe.idMeal

/-- Dispatch one `GatewayCall` to the gateway. -/
def runCall (gw : Gateway) : GatewayCall → Except Unit (List Recipe)
  | .byCategory s => gw.getRecipesByCategory s
  | .byArea s => gw.getRecipesByArea s
  | .byIngredient s => gw.getRecipesByIngredient s
  | .byName s => gw.searchByName s
  | .random n => gw.getRandomRecipes n

/-- The spec's post-filter criterion (§4.1), stated at the propositional
level: the query, compared case-insensitively, is a substring of the
recipe's name, of its instructions, or of its tag string; an absent tag
string contributes `False` (the check is skipped, not defaulted to a
match). -/
def MatchesQuery (query : String) (r : Recipe) : Prop :=
  jsLower query <:+: jsLower r.strMeal ∨
  jsLower query <:+: jsLower r.strInstructions ∨
  (match r.strTags with
   | some t => jsLower query <:+: jsLower t
   | none => False)


/-- The gateway returns pools whose identifiers are pairwise distinct (the
remote provider's collections are keyed by recipe identifier).  Needed for
the de-duplication half of the aggregator's output invariant. -/
def GwNodup (gw : Gateway) : Prop :=
  (∀ s l, gw.getRecipesByCategory s = .ok l → (idsOf l).Nodup) ∧
  (∀ s l, gw.getRecipesByArea s = .ok l → (idsOf l).Nodup) ∧
  (∀ s l, gw.getRecipesByIngredient s = .ok l → (idsOf l).Nodup)

/-- Recognizes a category-dimension gateway call. -/
def isCategoryCall : GatewayCall → Bool
  | .byCategory _ => true
  | _ => false

/-- Recognizes an area-dimension gateway call. -/
def isAreaCall : GatewayCall → Bool
  | .byArea _ => true
  | _ => false

/-- Recognizes an ingredient-dimension gateway call. -/
def isIngredientCall : GatewayCall → Bool
  | .byIngredient _ => true
  | _ => false

/-- `shuffleArray`'s in-place swap of positions `i` and `j`
(`[shuffled[i], shuffled[j]] = [shuffled[j], shuffled[i]]`), on the copied
list; at the indices the source uses, both positions are in bounds. -/
def lswap {α : Type} (l : List α) (i j : Nat) : List α :=
  match l[i]?, l[j]? with
  | some a, some b => (l.set i b).set j a
  | _, _ => l

/-- The descending loop of `shuffleArray` (`src/utils/helpers.ts` lines
158–165): for `i` from `n-1` down to `1`, swap position `i` with position
`r i`, where `r i` models `Math.floor(Math.random() * (i + 1))` for that
iteration. -/
def fisherYatesAux {α : Type} (r : Nat → Nat) (l : List α) : Nat → List α
  | 0 => l
  | i + 1 => fisherYatesAux r (lswap l (i + 1) (r (i + 1))) i

/-- `shuffleArray` from `src/utils/helpers.ts`: copy the input
(`[...array]`) and run the Fisher–Yates loop on the copy; `r` is the tape of
random draws, one per loop index. -/
def shuffleArray {α : Type} (r : Nat → Nat) (array : List α) : List α :=
  fisherYatesAux r array (array.length - 1)

/-- Compact constructor for concrete test recipes. -/
def mkRec (id name cat area : String) (ing : Option String) : Recipe :=
  { idMeal := id, strMeal := name, strCategory := cat, strArea := area,
    strInstructions := "Cook.", strTags := none, strIngredient1 := ing }

/-- Focal recipe of the duplicate-pool counterexample. -/
def focalDup : Recipe := mkRec "1" "Focal" "CatD" "AreaD" none

/-- The recipe that appears twice in the counterexample's category pool. -/
def otherDup : Recipe := mkRec "2" "Other" "CatD" "AreaD" none

/-- Gateway whose category pool lists the same recipe twice — a successful
response sequence under which the aggregator's output repeats an
identifier. -/
def gwDup : Gateway :=
  { getRecipesByCategory := fun _ => .ok [otherDup, otherDup]
    getRecipesByArea := fun _ => .ok []
    getRecipesByIngredient := fun _ => .ok []
    searchByName := fun _ => .ok []
    getRandomRecipes := fun _ => .ok [] }

/-- Focal recipe of the 3-category/4-area cascade scenario: category `CatX`,
area `AreaY`, first-ingredient token `chicken`. -/
def focalC6 : Recipe := mkRec "600" "Focal Dish" "CatX" "AreaY" (some "Chicken Breast")

/-- The three same-category peers of the cascade scenario. -/
def c6cat1 : Recipe := mkRec "601" "Cat Peer 1" "CatX" "Z1" none
def c6cat2 : Recipe := mkRec "602" "Cat Peer 2" "CatX" "Z2" none
def c6cat3 : Recipe := mkRec "603" "Cat Peer 3" "CatX" "Z3" none

/-- The four non-overlapping same-area peers of the cascade scenario. -/
def c6area1 : Recipe := mkRec "604" "Area Peer 1" "C1" "AreaY" none
def c6area2 : Recipe := mkRec "605" "Area Peer 2" "C2" "AreaY" none
def c6area3 : Recipe := mkRec "606" "Area Peer 3" "C3" "AreaY" none
def c6area4 : Recipe := mkRec "607" "Area Peer 4" "C4" "AreaY" none

/-- A recipe only the ingredient pool would contribute: it must never show
up, since the cascade stops before the ingredient fetch. -/
def c6extra : Recipe := mkRec "608" "Ingredient Peer" "C5" "Z5" none

/-- Gateway of the cascade scenario: 3 category matches, 4 fresh area
matches, and a non-empty ingredient pool that must remain unfetched. -/
def gwC6 : Gateway :=
  { getRecipesByCategory := fun s => if s == "CatX" then .ok [c6cat1, c6cat2, c6cat3] else .ok []
    getRecipesByArea := fun s => if s == "AreaY" then .ok [c6area1, c6area2, c6area3, c6area4] else .ok []
    getRecipesByIngredient := fun _ => .ok [c6extra]
    searchByName := fun _ => .ok []
    getRandomRecipes := fun _ => .ok [] }

/-- The pre-shuffle working set the cascade scenario collects: the 3
category peers followed by the 4 area peers. -/
def wsC6 : List Recipe := [c6cat1, c6cat2, c6cat3, c6area1, c6area2, c6area3, c6area4]

/-- Gateway for the failure-during-area-fetch scenario: one category match
(fewer than the limit), then a transport error on the area fetch. -/
def gwAreaFail : Gateway :=
  { getRecipesByCategory := fun _ => .ok [c6cat1]
    getRecipesByArea := fun _ => .error ()
    getRecipesByIngredient := fun _ => .ok [c6extra]
    searchByName := fun _ => .ok []
    getRandomRecipes := fun _ => .ok [] }

/-- First gateway of the determinism witness pair. -/
def gwDet1 : Gateway :=
  { getRecipesByCategory := fun s => if s == "CatX" then .ok [c6cat1, c6cat2, c6cat3] else .ok []
    getRecipesByArea := fun s => if s == "AreaY" then .ok [c6area1, c6area2, c6area3, c6area4] else .ok []
    getRecipesByIngredient := fun _ => .ok [c6extra]
    searchByName := fun _ => .ok [c6extra]
    getRandomRecipes := fun _ => .ok [] }

/-- Second gateway of the determinism witness pair: identical pool
responses, different behavior on the operations the aggregator never
touches. -/
def gwDet2 : Gateway :=
  { getRecipesByCategory := fun s => if s == "CatX" then .ok [c6cat1, c6cat2, c6cat3] else .ok []
    getRecipesByArea := fun s => if s == "AreaY" then .ok [c6area1, c6area2, c6area3, c6area4] else .ok []
    getRecipesByIngredient := fun _ => .ok [c6extra]
    searchByName := fun _ => .error ()
    getRandomRecipes := fun _ => .error () }

lemma matchesQueryB_iff (query : String) (r : Recipe) :
    matchesQueryB query r = true ↔ MatchesQuery query r := by
  unfold matchesQueryB MatchesQuery jsIncludes
  cases h : r.strTags <;>
    simp [Bool.or_eq_true, decide_eq_true_iff, or_assoc]

/-- `searchWithFilters` re-expressed through `primaryFetch` and `runCall`:
it performs the one prioritized fetch and, when the query is truthy, filters
the non-empty fetched list in memory. -/
lemma searchWithFilters_eq (gw : Gateway) (query : String) (filters : SearchFilters) :
    searchWithFilters gw query filters =
      match runCall gw (primaryFetch query filters) with
      | .error e => ([primaryFetch query filters], .error e)
      | .ok recipes =>
          if query ≠ "" && !recipes.isEmpty then
            ([primaryFetch query filters], .ok (recipes.filter (matchesQueryB query)))
          else
            ([primaryFetch query filters], .ok recipes) := by
  unfold searchWithFilters primaryFetch runCall
  by_cases h1 : truthy filters.ingredient <;>
    by_cases h2 : truthy filters.category <;>
      by_cases h3 : truthy filters.area <;>
        by_cases h4 : query ≠ "" <;>
          simp [h1, h2, h3, h4]

/-- Concrete recipe for the C5 scenario: name matches "soup", tag string
present. -/
def tomatoSoup : Recipe :=
  { idMeal := "101", strMeal := "Tomato Soup", strCategory := "Misc",
    strArea := "Unknown", strInstructions := "Boil the tomatoes.",
    strTags := some "easy,healthy", strIngredient1 := some "Tomato" }

/-- Concrete recipe for the C5 scenario: no match, and `strTags` is absent
(`undefined` in the source). -/
def steak : Recipe :=
  { idMeal := "102", strMeal := "Steak", strCategory := "Beef",
    strArea := "Unknown", strInstructions := "Grill it.",
    strTags := none, strIngredient1 := some "Beef" }

/-- Gateway for the C5 scenario: the free-text search returns a matching
recipe and a non-matching one whose tag string is absent. -/
def gwSoup : Gateway :=
  { getRecipesByCategory := fun _ => .ok []
    getRecipesByArea := fun _ => .ok []
    getRecipesByIngredient := fun _ => .ok []
    searchByName := fun s => if s == "soup" then .ok [tomatoSoup, steak] else .ok []
    getRandomRecipes := fun _ => .ok [] }

/-- C3: `searchWithFilters` issues exactly one gateway fetch, the one the
fixed priority order ingredient > category > area > free-text > random(12)
selects; in particular with `query = ""` and
`filters = {ingredient: "chicken", category: "Dessert"}` the single call is
`findByIngredient("chicken")` and no `findByCategory` call occurs. -/
theorem searchWithFilters_single_prioritized_call (gw : Gateway) (query : String)
    (filters : SearchFilters) :
    (searchWithFilters gw query filters).1 = [primaryFetch query filters] ∧
    (searchWithFilters gw ""
        { category := some "Dessert", ingredient := some "chicken" }).1 =
      [GatewayCall.byIngredient "chicken"] ∧
    (∀ s, GatewayCall.byCategory s ∉
      (searchWithFilters gw ""
        { category := some "Dessert", ingredient := some "chicken" }).1) := by
  have h1 : ∀ (q : String) (f : SearchFilters),
      (searchWithFilters gw q f).1 = [primaryFetch q f] := by
    intro q f
    rw [searchWithFilters_eq]
    rcases h : runCall gw (primaryFetch q f) with e | l
    · rfl
    · dsimp only
      split <;> rfl
  refine ⟨h1 query filters, ?_, ?_⟩
  · rw [h1]
    rfl
  · intro s
    rw [h1]
    simp [primaryFetch, truthy]

/-- C4: for a non-empty free-text query, the planner's result is exactly the
fetched list post-filtered in memory, and a recipe passes the post-filter
iff the query is, case-insensitively, a substring of its name, its
instructions, or its (present) tag string; an absent tag string never
matches. -/
theorem searchWithFilters_postFilter_iff (gw : Gateway) (query : String)
    (filters : SearchFilters) (recipes : List Recipe)
    (hq : query ≠ "")
    (hfetch : runCall gw (primaryFetch query filters) = .ok recipes) :
    (searchWithFilters gw query filters).2 = .ok (recipes.filter (matchesQueryB query)) ∧
    ∀ r : Recipe, r ∈ recipes.filter (matchesQueryB query) ↔
      r ∈ recipes ∧ MatchesQuery query r := by
  constructor
  · rw [searchWithFilters_eq, hfetch]
    dsimp only
    by_cases hemp : recipes.isEmpty
    · rw [List.isEmpty_iff] at hemp
      subst hemp
      simp [hq]
    · simp [hq, hemp]
  · intro r
    simp [List.mem_filter, matchesQueryB_iff]

/-- Witness for C4 at the concrete `gwSoup` scenario. -/
theorem searchWithFilters_postFilter_iff_witness :
    ("soup" ≠ "") ∧ (searchWithFilters gwSoup "soup" {}).2 = .ok [tomatoSoup] := by
  refine ⟨by decide, ?_⟩
  have h := searchWithFilters_postFilter_iff gwSoup "soup" {} [tomatoSoup, steak]
    (by decide) (by rfl)
  rw [h.1]
  rfl

/-- C5: `plan(query="soup", filters={})` against a gateway whose free-text
search returns Tomato Soup (tag string present) and Steak (tag string
absent) issues the single `findByName` call and returns only Tomato Soup;
the post-filter evaluates (does not throw) on the candidate with the absent
tag string. -/
theorem searchWithFilters_soup_example :
    steak.strTags = none ∧
    searchWithFilters gwSoup "soup" {} = ([GatewayCall.byName "soup"], .ok [tomatoSoup]) :=
  ⟨rfl, by rfl⟩

lemma idsOf_append (l1 l2 : List Recipe) : idsOf (l1 ++ l2) = idsOf l1 ++ idsOf l2 :=
  List.map_append _ _ _

lemma focal_not_mem_categorySurvivors (focal : Recipe) (pool : List Recipe) :
    focal.idMeal ∉ idsOf (categorySurvivors focal pool) := by
  intro h
  obtain ⟨r, hr, hid⟩ := List.mem_map.mp h
  obtain ⟨-, hpred⟩ := List.mem_filter.mp hr
  simp only [Bool.not_eq_true', beq_eq_false_iff_ne, ne_eq] at hpred
  exact hpred hid

lemma nodup_categorySurvivors (focal : Recipe) (pool : List Recipe)
    (h : (idsOf pool).Nodup) : (idsOf (categorySurvivors focal pool)).Nodup :=
  h.sublist ((List.filter_sublist pool).map Recipe.idMeal)

lemma focal_not_mem_mergePool (focal : Recipe) (recipes pool : List Recipe)
    (h : focal.idMeal ∉ idsOf recipes) :
    focal.idMeal ∉ idsOf (mergePool focal recipes pool) := by
  unfold mergePool
  rw [idsOf_append]
  intro hmem
  rcases List.mem_append.mp hmem with h1 | h2
  · exact h h1
  · obtain ⟨r, hr, hid⟩ := List.mem_map.mp h2
    obtain ⟨-, hpred⟩ := List.mem_filter.mp hr
    rw [Bool.and_eq_true] at hpred
    have := hpred.1
    simp only [Bool.not_eq_true', beq_eq_false_iff_ne, ne_eq] at this
    exact this hid

lemma nodup_mergePool (focal : Recipe) (recipes pool : List Recipe)
    (h1 : (idsOf recipes).Nodup) (h2 : (idsOf pool).Nodup) :
    (idsOf (mergePool focal recipes pool)).Nodup := by
  unfold mergePool
  rw [idsOf_append]
  refine List.Nodup.append h1 (h2.sublist ((List.filter_sublist pool).map Recipe.idMeal)) ?_
  intro x hx1 hx2
  obtain ⟨r, hr, hid⟩ := List.mem_map.mp hx2
  obtain ⟨-, hpred⟩ := List.mem_filter.mp hr
  rw [Bool.and_eq_true] at hpred
  have hnone := hpred.2
  simp only [Bool.not_eq_true', List.any_eq_false, beq_eq_false_iff_ne, ne_eq] at hnone
  obtain ⟨e, he, heid⟩ := List.mem_map.mp hx1
  exact hnone e he (by rw [heid, hid]; exact beq_self_eq_true x)

lemma relateStepIngredient_ok_inv (focal : Recipe) (limit : Nat) (gw : Gateway)
    (calls calls2 : List GatewayCall) (recipes out : List Recipe)
    (h : relateStepIngredient focal limit gw calls recipes = (calls2, .ok out)) :
    (focal.idMeal ∉ idsOf recipes → focal.idMeal ∉ idsOf out) ∧
    ((idsOf recipes).Nodup →
      (∀ s l, gw.getRecipesByIngredient s = .ok l → (idsOf l).Nodup) →
      (idsOf out).Nodup) := by
  unfold relateStepIngredient at h
  split at h
  · rcases hM : gw.getRecipesByIngredient ((mainIngredientToken focal).getD "") with e | pool
    · rw [hM] at h
      simp at h
    · rw [hM] at h
      rw [Prod.mk.injEq] at h
      obtain ⟨-, hout⟩ := h
      injection hout with hout
      subst hout
      exact ⟨fun hf => focal_not_mem_mergePool _ _ _ hf,
             fun hn hgw => nodup_mergePool _ _ _ hn (hgw _ _ hM)⟩
  · rw [Prod.mk.injEq] at h
    obtain ⟨-, hout⟩ := h
    injection hout with hout
    subst hout
    exact ⟨id, fun hn _ => hn⟩

lemma relateStepArea_ok_inv (focal : Recipe) (limit : Nat) (gw : Gateway)
    (calls calls2 : List GatewayCall) (recipes out : List Recipe)
    (h : relateStepArea focal limit gw calls recipes = (calls2, .ok out)) :
    (focal.idMeal ∉ idsOf recipes → focal.idMeal ∉ idsOf out) ∧
    ((idsOf recipes).Nodup →
      (∀ s l, gw.getRecipesByArea s = .ok l → (idsOf l).Nodup) →
      (∀ s l, gw.getRecipesByIngredient s = .ok l → (idsOf l).Nodup) →
      (idsOf out).Nodup) := by
  unfold relateStepArea at h
  split at h
  · rcases hM : gw.getRecipesByArea focal.strArea with e | pool
    · rw [hM] at h
      simp at h
    · rw [hM] at h
      have hstep := relateStepIngredient_ok_inv focal limit gw _ _ _ _ h
      refine ⟨fun hf => hstep.1 (focal_not_mem_mergePool _ _ _ hf), ?_⟩
      intro hn hga hgi
      exact hstep.2 (nodup_mergePool _ _ _ hn (hga _ _ hM)) hgi
  · have hstep := relateStepIngredient_ok_inv focal limit gw _ _ _ _ h
    exact ⟨hstep.1, fun hn _ hgi => hstep.2 hn hgi⟩

lemma relateRun_ok_inv (focal : Recipe) (limit : Nat) (gw : Gateway)
    (calls : List GatewayCall) (out : List Recipe)
    (h : relateRun focal limit gw = (calls, .ok out)) :
    focal.idMeal ∉ idsOf out ∧ (GwNodup gw → (idsOf out).Nodup) := by
  unfold relateRun at h
  rcases hM : gw.getRecipesByCategory focal.strCategory with e | pool
  · rw [hM] at h
    simp at h
  · rw [hM] at h
    have hstep := relateStepArea_ok_inv focal limit gw _ _ _ _ h
    refine ⟨hstep.1 (focal_not_mem_categorySurvivors _ _), ?_⟩
    intro hgw
    exact hstep.2 (nodup_categorySurvivors _ _ (hgw.1 _ _ hM)) hgw.2.1 hgw.2.2

/-- C1 (counterexample): a successful gateway response whose category pool
lists the same recipe twice makes the aggregator return a duplicate
identifier — the claim fails for arbitrary successful responses.  The
shuffle used is the identity, which permutes the concrete working set. -/
theorem useRelatedRecipes_dup_ids_cex :
    ((fun l : List Recipe => l) [otherDup, otherDup]).Perm [otherDup, otherDup] ∧
    ¬ (idsOf (useRelatedRecipes focalDup 2 gwDup (fun l => l)).relatedRecipes).Nodup := by
  constructor
  · exact List.Perm.refl _
  · decide

/-- C1 (amended): for every focal recipe, limit, gateway, and
element-permuting shuffle, the aggregator's output never contains the focal
identifier, and — provided every successfully returned pool has pairwise
distinct identifiers — contains no duplicate identifiers. -/
theorem useRelatedRecipes_ids_invariant (focal : Recipe) (limit : Nat) (gw : Gateway)
    (shuffle : List Recipe → List Recipe)
    (hperm : ∀ l : List Recipe, (shuffle l).Perm l) :
    focal.idMeal ∉ idsOf (useRelatedRecipes focal limit gw shuffle).relatedRecipes ∧
    (GwNodup gw →
      (idsOf (useRelatedRecipes focal limit gw shuffle).relatedRecipes).Nodup) := by
  unfold useRelatedRecipes
  rcases h : relateRun focal limit gw with ⟨calls, res⟩
  rcases res with e | ws
  · simp [idsOf]
  · have hinv := relateRun_ok_inv focal limit gw calls ws h
    dsimp only
    constructor
    · intro hmem
      have h1 : focal.idMeal ∈ idsOf (shuffle ws) :=
        List.map_subset Recipe.idMeal (List.take_subset _ _) hmem
      exact hinv.1 (((hperm ws).map Recipe.idMeal).mem_iff.mp h1)
    · intro hgw
      have h2 : (idsOf (shuffle ws)).Nodup :=
        (((hperm ws).map Recipe.idMeal).nodup_iff).mpr (hinv.2 hgw)
      have h3 : idsOf ((shuffle ws).take limit) = (idsOf (shuffle ws)).take limit :=
        List.map_take _ _ _
      rw [h3]
      exact h2.sublist (List.take_sublist _ _)

/-- Witness for the amended C1 at the cascade scenario. -/
theorem useRelatedRecipes_ids_invariant_witness :
    focalC6.idMeal ∉ idsOf (useRelatedRecipes focalC6 6 gwC6 (fun l => l)).relatedRecipes ∧
    (idsOf (useRelatedRecipes focalC6 6 gwC6 (fun l => l)).relatedRecipes).Nodup := by
  have h := useRelatedRecipes_ids_invariant focalC6 6 gwC6 (fun l => l)
    (fun l => List.Perm.refl l)
  refine ⟨h.1, h.2 ⟨?_, ?_, ?_⟩⟩
  · intro s l hl
    simp only [gwC6] at hl
    split at hl <;> (injection hl with hl; subst hl; decide)
  · intro s l hl
    simp only [gwC6] at hl
    split at hl <;> (injection hl with hl; subst hl; decide)
  · intro s l hl
    simp only [gwC6] at hl
    injection hl with hl
    subst hl
    decide

/-- C2: when the category fetch succeeds but leaves fewer than `limit`
survivors and the area fetch then fails, the aggregator surfaces the single
generic failure signal with an empty result — the partially collected
category-only pool is discarded. -/
theorem useRelatedRecipes_area_failure (focal : Recipe) (limit : Nat) (gw : Gateway)
    (shuffle : List Recipe → List Recipe) (pool1 : List Recipe)
    (hcat : gw.getRecipesByCategory focal.strCategory = .ok pool1)
    (hshort : (categorySurvivors focal pool1).length < limit)
    (harea : gw.getRecipesByArea focal.strArea = .error ()) :
    useRelatedRecipes focal limit gw shuffle =
      { relatedRecipes := [], error := some "Failed to load related recipes" } := by
  unfold useRelatedRecipes relateRun relateStepArea
  rw [hcat]
  dsimp only
  rw [if_pos hshort, harea]

/-- Witness for C2: one category match at limit 6, then an area-fetch
failure. -/
theorem useRelatedRecipes_area_failure_witness :
    useRelatedRecipes focalC6 6 gwAreaFail (fun l => l) =
      { relatedRecipes := [], error := some "Failed to load related recipes" } :=
  useRelatedRecipes_area_failure focalC6 6 gwAreaFail (fun l => l) [c6cat1]
    rfl (by decide) rfl

lemma relateStepIngredient_skip (focal : Recipe) (limit : Nat) (gw : Gateway)
    (calls : List GatewayCall) (recipes : List Recipe)
    (hge : limit ≤ recipes.length) :
    relateStepIngredient focal limit gw calls recipes = (calls, .ok recipes) := by
  unfold relateStepIngredient
  rw [if_neg]
  simp [Nat.not_lt.mpr hge]

lemma relateStepArea_skip (focal : Recipe) (limit : Nat) (gw : Gateway)
    (calls : List GatewayCall) (recipes : List Recipe)
    (hge : limit ≤ recipes.length) :
    relateStepArea focal limit gw calls recipes = (calls, .ok recipes) := by
  unfold relateStepArea
  rw [if_neg (Nat.not_lt.mpr hge)]
  exact relateStepIngredient_skip focal limit gw calls recipes hge

lemma byIngredient_mem_stepIngredient (focal : Recipe) (limit : Nat) (gw : Gateway)
    (calls : List GatewayCall) (recipes : List Recipe) (s : String)
    (h : GatewayCall.byIngredient s ∈ (relateStepIngredient focal limit gw calls recipes).1) :
    GatewayCall.byIngredient s ∈ calls ∨ truthy (mainIngredientToken focal) = true := by
  unfold relateStepIngredient at h
  split at h
  · next hcond =>
      rw [Bool.and_eq_true] at hcond
      exact Or.inr hcond.2
  · exact Or.inl h

lemma byIngredient_mem_stepArea (focal : Recipe) (limit : Nat) (gw : Gateway)
    (calls : List GatewayCall) (recipes : List Recipe) (s : String)
    (h : GatewayCall.byIngredient s ∈ (relateStepArea focal limit gw calls recipes).1) :
    GatewayCall.byIngredient s ∈ calls ∨ truthy (mainIngredientToken focal) = true := by
  unfold relateStepArea at h
  split at h
  · rcases hM : gw.getRecipesByArea focal.strArea with e | pool <;> rw [hM] at h
    · dsimp only at h
      rcases List.mem_append.mp h with h1 | h2
      · exact Or.inl h1
      · simp at h2
    · rcases byIngredient_mem_stepIngredient focal limit gw _ _ s h with h1 | h2
      · rcases List.mem_append.mp h1 with ha | hb
        · exact Or.inl ha
        · simp at hb
      · exact Or.inr h2
  · exact byIngredient_mem_stepIngredient focal limit gw _ _ s h

/-- C6: the cascade's gating.  Under a successful category fetch: (i) with at
least `limit` category survivors, the category call is the only gateway call
(no area or ingredient fetch); (ii) an ingredient fetch requires a derivable
(truthy) main-ingredient token; (iii) if the area merge brings the working
set to `limit` or more, the calls stop at category and area; and (iv) in the
concrete 3-category/4-area scenario at limit 6, the ingredient pool is never
fetched and any element-permuting shuffle yields exactly 6 pairwise-distinct
recipes drawn from the 7 collected. -/
theorem relateRun_cascade_gating (focal : Recipe) (limit : Nat) (gw : Gateway)
    (pool1 : List Recipe)
    (hcat : gw.getRecipesByCategory focal.strCategory = .ok pool1) :
    (limit ≤ (categorySurvivors focal pool1).length →
      (relateRun focal limit gw).1 = [.byCategory focal.strCategory]) ∧
    (∀ s, GatewayCall.byIngredient s ∈ (relateRun focal limit gw).1 →
      truthy (mainIngredientToken focal) = true) ∧
    (∀ pool2, gw.getRecipesByArea focal.strArea = .ok pool2 →
      (categorySurvivors focal pool1).length < limit →
      limit ≤ (mergePool focal (categorySurvivors focal pool1) pool2).length →
      (relateRun focal limit gw).1 =
        [.byCategory focal.strCategory, .byArea focal.strArea]) ∧
    ((relateRun focalC6 6 gwC6).1 = [.byCategory "CatX", .byArea "AreaY"] ∧
     ∀ shuffle : List Recipe → List Recipe, (∀ l, (shuffle l).Perm l) →
       (useRelatedRecipes focalC6 6 gwC6 shuffle).relatedRecipes.length = 6 ∧
       (idsOf (useRelatedRecipes focalC6 6 gwC6 shuffle).relatedRecipes).Nodup ∧
       idsOf (useRelatedRecipes focalC6 6 gwC6 shuffle).relatedRecipes ⊆ idsOf wsC6) := by
  have hwsC6 : relateRun focalC6 6 gwC6 = ([.byCategory "CatX", .byArea "AreaY"], .ok wsC6) := by
    rfl
  refine ⟨?_, ?_, ?_, ?_, ?_⟩
  · intro hge
    unfold relateRun
    rw [hcat]
    dsimp only
    rw [relateStepArea_skip focal limit gw _ _ hge]
  · intro s hmem
    unfold relateRun at hmem
    rw [hcat] at hmem
    dsimp only at hmem
    rcases byIngredient_mem_stepArea focal limit gw _ _ s hmem with h1 | h2
    · simp at h1
    · exact h2
  · intro pool2 harea hlt hge2
    unfold relateRun
    rw [hcat]
    dsimp only
    unfold relateStepArea
    rw [if_pos hlt, harea]
    dsimp only
    rw [relateStepIngredient_skip focal limit gw _ _ hge2]
    rfl
  · rw [hwsC6]
  · intro shuffle hperm
    unfold useRelatedRecipes
    rw [hwsC6]
    dsimp only
    have hlen := (hperm wsC6).length_eq
    refine ⟨?_, ?_, ?_⟩
    · rw [List.length_take, hlen]
      decide
    · have h2 : (idsOf (shuffle wsC6)).Nodup :=
        (((hperm wsC6).map Recipe.idMeal).nodup_iff).mpr (by decide)
      have h3 : idsOf ((shuffle wsC6).take 6) = (idsOf (shuffle wsC6)).take 6 :=
        List.map_take _ _ _
      rw [h3]
      exact h2.sublist (List.take_sublist _ _)
    · intro x hx
      have h1 : x ∈ idsOf (shuffle wsC6) :=
        List.map_subset Recipe.idMeal (List.take_subset _ _) hx
      exact (((hperm wsC6).map Recipe.idMeal).mem_iff).mp h1

/-- Witness for C6 at the cascade scenario with the identity shuffle. -/
theorem relateRun_cascade_gating_witness :
    (relateRun focalC6 6 gwC6).1 = [.byCategory "CatX", .byArea "AreaY"] ∧
    (useRelatedRecipes focalC6 6 gwC6 (fun l => l)).relatedRecipes.length = 6 := by
  have h := relateRun_cascade_gating focalC6 6 gwC6 [c6cat1, c6cat2, c6cat3] rfl
  exact ⟨h.2.2.2.1, (h.2.2.2.2 (fun l => l) (fun l => List.Perm.refl l)).1⟩

lemma relateRun_calls_shape (focal : Recipe) (limit : Nat) (gw : Gateway) :
    (relateRun focal limit gw).1 = [.byCategory focal.strCategory] ∨
    (relateRun focal limit gw).1 =
      [.byCategory focal.strCategory, .byArea focal.strArea] ∨
    (relateRun focal limit gw).1 =
      [.byCategory focal.strCategory, .byArea focal.strArea,
        .byIngredient ((mainIngredientToken focal).getD "")] := by
  unfold relateRun
  rcases hC : gw.getRecipesByCategory focal.strCategory with e | pool
  · left; rfl
  · dsimp only
    unfold relateStepArea
    split
    · rcases hA : gw.getRecipesByArea focal.strArea with e2 | pool2
      · right; left; rfl
      · dsimp only
        unfold relateStepIngredient
        split
        · rcases hI : gw.getRecipesByIngredient ((mainIngredientToken focal).getD "")
            with e3 | pool3 <;> dsimp only
          · right; right; rfl
          · right; right; rfl
        · right; left; rfl
    · next hge =>
        rw [relateStepIngredient_skip focal limit gw _ _ (Nat.not_lt.mp hge)]
        left; rfl

/-- C7: one invocation of the aggregator issues at most 3 gateway calls, and
each of the three dimensions (category, area, ingredient) is fetched at most
once. -/
theorem relateRun_at_most_three_calls (focal : Recipe) (limit : Nat) (gw : Gateway) :
    (relateRun focal limit gw).1.length ≤ 3 ∧
    (relateRun focal limit gw).1.countP isCategoryCall ≤ 1 ∧
    (relateRun focal limit gw).1.countP isAreaCall ≤ 1 ∧
    (relateRun focal limit gw).1.countP isIngredientCall ≤ 1 := by
  rcases relateRun_calls_shape focal limit gw with h | h | h <;> rw [h] <;>
    simp [List.countP_cons, List.countP_nil, isCategoryCall, isAreaCall, isIngredientCall]

lemma relateStepIngredient_congr (focal : Recipe) (limit : Nat) (gw1 gw2 : Gateway)
    (hi : ∀ s, gw1.getRecipesByIngredient s = gw2.getRecipesByIngredient s) :
    ∀ calls recipes, relateStepIngredient focal limit gw1 calls recipes =
      relateStepIngredient focal limit gw2 calls recipes := by
  intro calls recipes
  unfold relateStepIngredient
  rw [hi]

lemma relateStepArea_congr (focal : Recipe) (limit : Nat) (gw1 gw2 : Gateway)
    (ha : gw1.getRecipesByArea focal.strArea = gw2.getRecipesByArea focal.strArea)
    (hi : ∀ s, gw1.getRecipesByIngredient s = gw2.getRecipesByIngredient s) :
    ∀ calls recipes, relateStepArea focal limit gw1 calls recipes =
      relateStepArea focal limit gw2 calls recipes := by
  intro calls recipes
  unfold relateStepArea
  rw [ha]
  simp only [relateStepIngredient_congr focal limit gw1 gw2 hi]

/-- C9: the pre-shuffle working set (and the whole call/result pair of the
cascade) is a deterministic function of the focal recipe, the limit, and the
gateway's responses: two gateways that answer the relevant queries
identically yield identical cascade runs. -/
theorem relateRun_deterministic (focal : Recipe) (limit : Nat) (gw1 gw2 : Gateway)
    (hc : gw1.getRecipesByCategory focal.strCategory =
      gw2.getRecipesByCategory focal.strCategory)
    (ha : gw1.getRecipesByArea focal.strArea = gw2.getRecipesByArea focal.strArea)
    (hi : ∀ s, gw1.getRecipesByIngredient s = gw2.getRecipesByIngredient s) :
    relateRun focal limit gw1 = relateRun focal limit gw2 := by
  unfold relateRun
  rw [hc]
  simp only [relateStepArea_congr focal limit gw1 gw2 ha hi]

/-- Witness for C9: two gateways with identical pool responses (but
different name-search and random-sample behavior) produce the same cascade
run. -/
theorem relateRun_deterministic_witness :
    relateRun focalC6 6 gwDet1 = relateRun focalC6 6 gwDet2 :=
  relateRun_deterministic focalC6 6 gwDet1 gwDet2 rfl rfl (fun _ => rfl)

lemma cons_set_perm {α : Type} {t : List α} {k : Nat} {b x : α}
    (h : t[k]? = some b) : (b :: t.set k x).Perm (x :: t) := by
  induction t generalizing k with
  | nil => simp at h
  | cons c t' ih =>
    cases k with
    | zero =>
      simp only [List.getElem?_cons_zero, Option.some.injEq] at h
      subst h
      exact List.Perm.swap x c t'
    | succ k' =>
      have hsub := ih (k := k') (by simpa using h)
      exact (List.Perm.swap c b _).trans ((hsub.cons c).trans (List.Perm.swap x c t'))

lemma set_set_perm {α : Type} : ∀ (l : List α) (i j : Nat) (a b : α),
    l[i]? = some a → l[j]? = some b → ((l.set i b).set j a).Perm l := by
  intro l
  induction l with
  | nil =>
    intro i j a b hi hj
    simp at hi
  | cons x t ih =>
    intro i j a b hi hj
    cases i with
    | zero =>
      cases j with
      | zero =>
        simp only [List.getElem?_cons_zero, Option.some.injEq] at hi hj
        subst hi
        subst hj
        exact List.Perm.refl _
      | succ j' =>
        simp only [List.getElem?_cons_zero, Option.some.injEq] at hi
        subst hi
        exact cons_set_perm (by simpa using hj)
    | succ i' =>
      cases j with
      | zero =>
        simp only [List.getElem?_cons_zero, Option.some.injEq] at hj
        subst hj
        exact cons_set_perm (by simpa using hi)
      | succ j' =>
        exact (ih i' j' a b (by simpa using hi) (by simpa using hj)).cons x

lemma lswap_perm {α : Type} (l : List α) (i j : Nat) : (lswap l i j).Perm l := by
  unfold lswap
  split
  · next a b hi hj => exact set_set_perm l i j a b hi hj
  · exact List.Perm.refl l

lemma fisherYatesAux_perm {α : Type} (r : Nat → Nat) :
    ∀ (n : Nat) (l : List α), (fisherYatesAux r l n).Perm l := by
  intro n
  induction n with
  | zero => intro l; exact List.Perm.refl l
  | succ k ih =>
    intro l
    exact (ih (lswap l (k + 1) (r (k + 1)))).trans (lswap_perm l (k + 1) (r (k + 1)))

/-- C10: for every input list and every tape of random draws, `shuffleArray`
returns a permutation of its input (same elements with the same
multiplicities); the source operates on the copy `[...array]`, leaving the
argument unchanged. -/
theorem shuffleArray_perm {α : Type} (r : Nat → Nat) (array : List α) :
    (shuffleArray r array).Perm array :=
  fisherYatesAux_perm r (array.length - 1) array
